import Mathlib

/-!
Verification of the export-documentation coverage analyzer
(`scripts/check_docstrings.py`).

The Python source is shallowly embedded: each source file is a `String`
(its full text), split into lines exactly as `content.split('\n')` does;
the per-line Python string operations (`strip`, `startswith`, `endswith`)
are modelled over the character list `String.data`; the export regex is
modelled as a backtracking matcher over `List Char`; the file-read step,
which can raise `OSError`/`UnicodeDecodeError` in Python, is modelled by
`Except` values; the printed report is modelled as a list of abstract
output lines.
-/

namespace CheckDocstrings

/-- Whitespace characters of Python's `str.strip()` / the regex class `\s`
(ASCII part; the unicode extensions are irrelevant to the scanned text). -/
def pySpace (c : Char) : Bool :=
  c = ' ' || c = '\t' || c = '\n' || c = '\r' || c = '\x0c' || c = '\x0b'

/-- Python `s.strip()`: remove leading and trailing whitespace. -/
def pyStrip (s : String) : String :=
  String.mk (((s.data.dropWhile pySpace).reverse.dropWhile pySpace).reverse)

/-- Python `s.startswith(pre)`. -/
def strStartsWith (s pre : String) : Bool :=
  pre.data.isPrefixOf s.data

/-- Python `s.endswith(suf)`. -/
def strEndsWith (s suf : String) : Bool :=
  suf.data.reverse.isPrefixOf s.data.reverse

/-- Python `content.split('\n')` (line 24 of the source). -/
def splitNl : List Char → List String
  | [] => [""]
  | c :: rest =>
    match splitNl rest with
    | [] => [String.mk [c]]
    | h :: t =>
      if c = '\n' then "" :: h :: t
      else String.mk (c :: h.data) :: t

/-- The list of lines of a file's text, as the source computes it. -/
def fileLines (content : String) : List String :=
  splitNl content.data

/-- A stripped line qualifies as a documentation comment when it ends with
`*/` or starts with `///` (line 36 of the source). -/
def isDocComment (l : String) : Bool :=
  strEndsWith (pyStrip l) "*/" || strStartsWith (pyStrip l) "///"

/-- The loop body of lines 32-43 of the source: scan the given lines (already
ordered from the closest preceding line upward), skipping blank lines,
stopping with `true` on a doc-comment line, skipping decorator lines, and
stopping with `false` on anything else; `false` when the list runs out. -/
def classifyScan : List String → Bool
  | [] => false
  | l :: rest =>
    let p := pyStrip l
    if p = "" then classifyScan rest
    else if strEndsWith p "*/" || strStartsWith p "///" then true
    else if strStartsWith p "@" then classifyScan rest
    else false

/-- The lines visited by `for j in range(i - 1, max(-1, i - 10), -1)` at
line 32 of the source: lines `i-1, i-2, …, max(0, i-9)`, in that order. -/
def lookbackWindow (lines : List String) (i : Nat) : List String :=
  ((lines.take i).reverse).take 9

/-- The documentation verdict for an export found at 0-based line index `i`
(lines 30-43 of the source). -/
def hasDocstring (lines : List String) (i : Nat) : Bool :=
  classifyScan (lookbackWindow lines i)

/-! ### The export pattern

The source (line 12) compiles
`export\s+(?:async\s+)?(?:function|class|const|type|interface|enum)\s+([a-zA-Z0-9_]+)`
and applies `.search` to each line, which returns the match at the leftmost
position where the pattern matches.  The matcher below follows the regex
token by token; `\s+` is taken greedily without backtracking, which is
equivalent here because no following token can consume a whitespace
character, and the final `([a-zA-Z0-9_]+)` is the greedy capture group. -/

/-- Character class `[a-zA-Z0-9_]`. -/
def wordChar (c : Char) : Bool :=
  ('a' ≤ c && c ≤ 'z') || ('A' ≤ c && c ≤ 'Z') || ('0' ≤ c && c ≤ '9') || c = '_'

/-- Match a literal string, returning the remaining input. -/
def litMatch : List Char → List Char → Option (List Char)
  | [], cs => some cs
  | _ :: _, [] => none
  | p :: ps, c :: cs => if c = p then litMatch ps cs else none

/-- Match `\s+` greedily, returning the remaining input. -/
def ws1 : List Char → Option (List Char)
  | [] => none
  | c :: cs => if pySpace c then some (cs.dropWhile pySpace) else none

/-- Match the capture group `([a-zA-Z0-9_]+)`, returning the captured name. -/
def nameMatch (cs : List Char) : Option String :=
  match cs.takeWhile wordChar with
  | [] => none
  | w => some (String.mk w)

/-- The declaration-kind alternation of the pattern, in the source's order. -/
def kindKeywords : List String :=
  ["function", "class", "const", "type", "interface", "enum"]

/-- Match `(?:kw₁|kw₂|…)\s+([a-zA-Z0-9_]+)`: try each alternative together
with its continuation, moving on when either fails. -/
def altMatch : List String → List Char → Option String
  | [], _ => none
  | kw :: kws, cs =>
    match litMatch kw.data cs with
    | some rest =>
      match (ws1 rest).bind nameMatch with
      | some n => some n
      | none => altMatch kws cs
    | none => altMatch kws cs

/-- Match `(?:async\s+)?(?:function|…)\s+([a-zA-Z0-9_]+)`: the optional
group is tried first and dropped on failure of the remainder. -/
def afterExport (cs : List Char) : Option String :=
  match (litMatch "async".data cs).bind ws1 with
  | some cs2 =>
    match altMatch kindKeywords cs2 with
    | some n => some n
    | none => altMatch kindKeywords cs
  | none => altMatch kindKeywords cs

/-- Match the whole pattern anchored at the start of the input. -/
def matchExportAt (cs : List Char) : Option String :=
  ((litMatch "export".data cs).bind ws1).bind afterExport

/-- Python `export_pattern.search(line)`: the match at the leftmost position where
the pattern matches, `none` when no position matches. -/
def searchExport : List Char → Option String
  | [] => none
  | c :: cs =>
    match matchExportAt (c :: cs) with
    | some n => some n
    | none => searchExport cs

/-- The symbol name the Export Locator extracts from one line, when any. -/
def lineExport (line : String) : Option String :=
  searchExport line.data

/-! ### The pipeline: sites, aggregation, report -/

/-- A located exported declaration together with its documentation verdict
(the data the loop of lines 25-49 of the source produces for one match). -/
structure ExportSite where
  file : String
  /-- 1-indexed line number, `i+1` in the source. -/
  line : Nat
  name : String
  documented : Bool
deriving DecidableEq

/-- The loop `for i, line in enumerate(lines)` of lines 25-43 of the source:
`idx` is the 0-based index of the first line of `todo` within `allLines`. -/
def scanLines (filepath : String) (allLines : List String) :
    Nat → List String → List ExportSite
  | _, [] => []
  | idx, line :: rest =>
    match lineExport line with
    | some n =>
        { file := filepath, line := idx + 1, name := n,
          documented := hasDocstring allLines idx } ::
          scanLines filepath allLines (idx + 1) rest
    | none => scanLines filepath allLines (idx + 1) rest

/-- All export sites of one file, in ascending line order. -/
def fileSites (filepath : String) (content : String) : List ExportSite :=
  scanLines filepath (fileLines content) 0 (fileLines content)

/-- All export sites of the corpus, in file-enumeration order; the corpus is
the list of `(filepath, content)` pairs in the order `os.walk` yields them. -/
def allSites (files : List (String × String)) : List ExportSite :=
  files.flatMap fun pc => fileSites pc.1 pc.2

/-- The counter `items_with_docstrings` (lines 45-47 of the source). -/
def documentedCount (sites : List ExportSite) : Nat :=
  (sites.filter (fun s => s.documented)).length

/-- The entry appended to `missing_docstrings` at line 49 of the source:
`f"{filepath}:{i+1} - {item_name}"`. -/
def fmtMissing (s : ExportSite) : String :=
  s.file ++ ":" ++ toString s.line ++ " - " ++ s.name

/-- The list `missing_docstrings`, in the order the loop appends to it. -/
def missingDocstrings (sites : List ExportSite) : List String :=
  sites.filterMap fun s => if s.documented then none else some (fmtMissing s)

/-- One line of the printed report.  The coverage line carries the two
counters symbolically; the source renders `(d / t) * 100` with `:.2f`. -/
inductive OutLine where
  | noItems
  | total (n : Nat)
  | documented (n : Nat)
  | coverage (d t : Nat)
  | missingHeader
  | missingEntry (s : String)
deriving DecidableEq

/-- The print sequence of lines 51-63 of the source. -/
def report (sites : List ExportSite) : List OutLine :=
  if sites.length = 0 then [OutLine.noItems]
  else
    [OutLine.total sites.length,
     OutLine.documented (documentedCount sites),
     OutLine.coverage (documentedCount sites) sites.length] ++
    (if missingDocstrings sites = [] then []
     else OutLine.missingHeader :: (missingDocstrings sites).map OutLine.missingEntry)

/-- The whole run on an already-read corpus. -/
def checkOutput (files : List (String × String)) : List OutLine :=
  report (allSites files)

/-- The read step (lines 21-22 of the source).  `open`/`read` can raise
`OSError` or `UnicodeDecodeError`; a raised exception is modelled as an
`Except.error` carrying the message, and propagation of the first one out
of the loop is the `do`-bind. -/
def readFiles : List (String × Except String String) →
    Except String (List (String × String))
  | [] => Except.ok []
  | (p, r) :: rest =>
    match r with
    | Except.error e => Except.error e
    | Except.ok c =>
      match readFiles rest with
      | Except.error e => Except.error e
      | Except.ok more => Except.ok ((p, c) :: more)

/-- The function `check_docstrings` on a corpus of read results: an uncaught read error
aborts the run before anything is printed; otherwise the report of the
read corpus is printed. -/
def runCheck (reads : List (String × Except String String)) :
    Except String (List OutLine) :=
  match readFiles reads with
  | Except.error e => Except.error e
  | Except.ok files => Except.ok (checkOutput files)

/-! ### Spec-side definitions

These follow the words of spec sentences (not the source), for comparison
with the embedded code. -/

/-- A line the backward scan moves past without stopping: blank after
trimming, or a decorator line that does not itself qualify as a doc
comment. -/
def skipsLine (l : String) : Bool :=
  pyStrip l = "" || (strStartsWith (pyStrip l) "@" && !(isDocComment l))

/-- Restated from the claimed classifier contract: scan the lookback
window, skip every blank line and every decorator line unconditionally,
and let the first remaining line decide the verdict. -/
def claimClassify (lines : List String) (i : Nat) : Bool :=
  match (lookbackWindow lines i).find?
      (fun l => !(pyStrip l = "" || strStartsWith (pyStrip l) "@")) with
  | some l => isDocComment l
  | none => false

/-- The verdict of a window list read as "the first line the scan does not
skip decides": `true` exactly when that line is a doc comment. -/
def findVerdict (ws : List String) : Bool :=
  match ws.find? (fun l => !(skipsLine l)) with
  | some l => isDocComment l
  | none => false

/-- The amended classifier contract: scan the lookback window, skip blank
lines and decorator lines that are not themselves doc comments, and let the
first remaining line decide the verdict (comment detection takes precedence
over decorator skipping). -/
def amendedClassify (lines : List String) (i : Nat) : Bool :=
  findVerdict (lookbackWindow lines i)

/-! ### Helper lemmas about the classifier -/

/-- A doc-comment line is not blank after stripping. -/
theorem isDocComment_strip_ne {l : String} (h : isDocComment l = true) :
    pyStrip l ≠ "" := by
  intro he
  rw [isDocComment, he] at h
  exact absurd h (by decide)

/-- A decorator line is not blank after stripping. -/
theorem at_strip_ne {l : String} (h : strStartsWith (pyStrip l) "@" = true) :
    pyStrip l ≠ "" := by
  intro he
  rw [he] at h
  exact absurd h (by decide)

/-- The scan loop returns exactly the verdict of the first line it does not
skip: comment detection is checked before decorator skipping, so a decorator
line that itself looks like a doc comment terminates the scan with `true`. -/
theorem classifyScan_eq_findVerdict : ∀ ws : List String,
    classifyScan ws = findVerdict ws
  | [] => rfl
  | l :: rest => by
    have ih := classifyScan_eq_findVerdict rest
    by_cases hb : pyStrip l = ""
    · have hsk : skipsLine l = true := by simp [skipsLine, hb]
      have h1 : classifyScan (l :: rest) = classifyScan rest := by
        simp [classifyScan, hb]
      have h2 : findVerdict (l :: rest) = findVerdict rest := by
        rw [findVerdict, List.find?_cons_of_neg _ (by simp [hsk]), findVerdict]
      rw [h1, ih, h2]
    · by_cases hd : isDocComment l = true
      · have hsk : skipsLine l = false := by simp [skipsLine, hb, hd]
        have h1 : classifyScan (l :: rest) = true := by
          rw [isDocComment] at hd
          simp [classifyScan, hb, hd]
        have h2 : findVerdict (l :: rest) = true := by
          rw [findVerdict, List.find?_cons_of_pos _ (by simp [hsk])]
          exact hd
        rw [h1, h2]
      · by_cases ha : strStartsWith (pyStrip l) "@" = true
        · have hsk : skipsLine l = true := by simp [skipsLine, ha, hd]
          have h1 : classifyScan (l :: rest) = classifyScan rest := by
            rw [isDocComment] at hd
            simp [classifyScan, hb, hd, ha]
          have h2 : findVerdict (l :: rest) = findVerdict rest := by
            rw [findVerdict, List.find?_cons_of_neg _ (by simp [hsk]), findVerdict]
          rw [h1, ih, h2]
        · have hsk : skipsLine l = false := by simp [skipsLine, hb, ha]
          have h1 : classifyScan (l :: rest) = false := by
            rw [isDocComment] at hd
            simp [classifyScan, hb, hd, ha]
          have h2 : findVerdict (l :: rest) = false := by
            rw [findVerdict, List.find?_cons_of_pos _ (by simp [hsk])]
            simpa using hd
          rw [h1, h2]

/-- A window whose lines are all skipped yields `false`. -/
theorem classifyScan_of_all_skips {ws : List String}
    (h : ∀ l ∈ ws, skipsLine l = true) : classifyScan ws = false := by
  rw [classifyScan_eq_findVerdict, findVerdict]
  have hn : ws.find? (fun l => !(skipsLine l)) = none := by
    rw [List.find?_eq_none]
    intro x hx
    simp [h x hx]
  rw [hn]

/-- Scanning any run of decorator lines placed directly below a doc-comment
line yields `true`, with no bound on the run's length (the bound lives in
the window construction, not in the scan). -/
theorem classifyScan_decorators_then_doc :
    ∀ (ds : List String) (doc : String) (rest : List String),
      (∀ l ∈ ds, strStartsWith (pyStrip l) "@" = true) →
      isDocComment doc = true →
      classifyScan (ds ++ doc :: rest) = true
  | [], doc, rest => by
    intro _ hdoc
    have hne := isDocComment_strip_ne hdoc
    rw [isDocComment] at hdoc
    simp [classifyScan, hne, hdoc]
  | d :: ds, doc, rest => by
    intro hds hdoc
    have hat : strStartsWith (pyStrip d) "@" = true := hds d (by simp)
    have hne := at_strip_ne hat
    have ih := classifyScan_decorators_then_doc ds doc rest
      (fun l hl => hds l (by simp [hl])) hdoc
    by_cases hd : (strEndsWith (pyStrip d) "*/" || strStartsWith (pyStrip d) "///") = true
    · simp [classifyScan, hne, hd]
    · simp only [List.cons_append]
      simp [classifyScan, hne, hd, hat, ih]

/-! ### C1: the classifier contract -/

/-- Counterexample input for C1: the line directly above the export starts
with `@` and ends with `*/`. -/
def exLinesC1 : List String :=
  ["const x = 1;", "@foo */", "export function bar()"]

/-- C1 fails as stated: at `exLinesC1` the export on line index 2 is
classified documented by the code, while the claimed contract (decorator
lines are unconditionally scanned past, and the first non-blank
non-decorator line alone decides) classifies it undocumented, because the
decorator line `"@foo */"` ends with `*/` and the code checks the comment
condition before the decorator condition. -/
theorem c1_counterexample :
    lineExport (exLinesC1.getD 2 "") = some "bar" ∧
    hasDocstring exLinesC1 2 = true ∧
    claimClassify exLinesC1 2 = false := by decide

/-- C1 (amended): the classifier returns documented if and only if, among
the at most 9 lines immediately preceding the export line, the first line
that is neither blank after trimming nor a decorator line that fails the
doc-comment test ends with `*/` or begins with `///`; blank lines and such
decorator lines are scanned past, and any other non-blank line immediately
yields undocumented (a decorator line that itself ends with `*/` or begins
with `///` counts as documentation, since the comment check precedes the
decorator check). -/
theorem c1_amended_classifier (lines : List String) (i : Nat) :
    hasDocstring lines i = amendedClassify lines i :=
  classifyScan_eq_findVerdict (lookbackWindow lines i)

/-! ### Window decomposition lemmas -/

/-- Taking exactly up to a distinguished line of a decomposed file keeps the
part before it. -/
theorem take_to_marker (before : List String) (doc : String)
    (mid : List String) (rest : List String) :
    (before ++ doc :: mid ++ rest).take (before.length + 1 + mid.length) =
      before ++ doc :: mid := by
  rw [show before.length + 1 + mid.length = before.length + (1 + mid.length) by omega,
      show before ++ doc :: mid ++ rest = before ++ (doc :: (mid ++ rest)) by simp,
      List.take_append]
  congr 1
  rw [show 1 + mid.length = mid.length + 1 by omega, List.take_succ_cons]
  congr 1
  exact List.take_left mid rest

/-- The lookback window of a line placed `mid.length + 1` lines above a
doc line, with `before` above that: the reversed run, then the doc line,
then the reversed prefix, truncated to 9. -/
theorem lookbackWindow_structured (before : List String) (doc : String)
    (mid : List String) (rest : List String) :
    lookbackWindow (before ++ doc :: mid ++ rest) (before.length + 1 + mid.length) =
      (mid.reverse ++ doc :: before.reverse).take 9 := by
  rw [lookbackWindow, take_to_marker]
  congr 1
  simp

/-! ### C2: decorator transparency -/

/-- Counterexample input for C2: a doc comment above a chain of 9 plain
decorator lines above an export. -/
def exLinesC2 : List String :=
  ["/** documented */", "@a1", "@a2", "@a3", "@a4", "@a5", "@a6", "@a7", "@a8", "@a9",
   "export function k()"]

/-- C2 fails as stated: `exLinesC2` has an export at line index 10, a chain
of 9 decorator lines directly above it, and a qualifying doc comment
directly above the chain, yet the classifier returns undocumented — the
chain exhausts the 9-line lookback window before the doc comment is
reached, so decorator chains are not skipped "in their entirety" at
arbitrary length. -/
theorem c2_counterexample :
    (∀ l ∈ List.take 9 (List.drop 1 exLinesC2), strStartsWith (pyStrip l) "@" = true) ∧
    isDocComment (exLinesC2.getD 0 "") = true ∧
    lineExport (exLinesC2.getD 10 "") = some "k" ∧
    hasDocstring exLinesC2 10 = false := by decide

/-- C2 (amended): an export preceded by a chain of at least one and at most
8 decorator lines (each starting with `@` after trimming), the chain itself
immediately preceded by a qualifying doc-comment line, is classified
documented.  Transparency does not extend to arbitrary chain length: the
counterexample above exhibits a chain of 9 plain decorator lines whose doc
comment is never reached. -/
theorem c2_amended_decorator_transparency (before : List String) (doc : String)
    (decs : List String) (line : String) (after : List String)
    (hlo : 1 ≤ decs.length) (hhi : decs.length ≤ 8)
    (hdecs : ∀ l ∈ decs, strStartsWith (pyStrip l) "@" = true)
    (hdoc : isDocComment doc = true) :
    hasDocstring (before ++ doc :: decs ++ line :: after)
      (before.length + 1 + decs.length) = true := by
  rw [hasDocstring, lookbackWindow_structured]
  rw [show (9 : Nat) = decs.reverse.length + (9 - decs.length) by
        rw [List.length_reverse]; omega,
      List.take_append,
      show 9 - decs.length = (8 - decs.length) + 1 by omega,
      List.take_succ_cons]
  exact classifyScan_decorators_then_doc decs.reverse doc _
    (fun l hl => hdecs l (List.mem_reverse.mp hl)) hdoc

/-- Witness for the amended C2 at a concrete input: one decorator line
between a doc comment and the export. -/
theorem c2_amended_decorator_transparency_witness :
    (1 ≤ (["@dec"] : List String).length ∧ (["@dec"] : List String).length ≤ 8 ∧
      (∀ l ∈ (["@dec"] : List String), strStartsWith (pyStrip l) "@" = true) ∧
      isDocComment "/** d */" = true) ∧
    hasDocstring (["const a = 0;"] ++ "/** d */" :: ["@dec"] ++
      "export function m()" :: []) (["const a = 0;"].length + 1 + 1) = true :=
  ⟨⟨by decide, by decide, by decide, by decide⟩,
    c2_amended_decorator_transparency ["const a = 0;"] "/** d */" ["@dec"]
      "export function m()" [] (by decide) (by decide) (by decide) (by decide)⟩

/-! ### C10: the lookback window is absolute -/

/-- Counterexample input for C10: 9 decorator lines above the export, one of
which ends with `*/`, and a doc comment above the run. -/
def exLinesC10 : List String :=
  ["/** d */", "@a", "@a", "@a", "@a", "@a */", "@a", "@a", "@a", "@a",
   "export function h()"]

/-- C10 fails as stated: `exLinesC10` has 9 consecutive decorator lines
(each starting with `@` after trimming) immediately above the export at
line index 10, with a qualifying doc comment directly above them, yet the
verdict is documented, not the forced undocumented the claim asserts: the
decorator line `"@a */"` inside the run ends with `*/` and the code's
comment check precedes its decorator check. -/
theorem c10_counterexample :
    (∀ l ∈ List.take 9 (List.drop 1 exLinesC10), strStartsWith (pyStrip l) "@" = true) ∧
    isDocComment (exLinesC10.getD 0 "") = true ∧
    lineExport (exLinesC10.getD 10 "") = some "h" ∧
    hasDocstring exLinesC10 10 = true := by decide

/-- C10 (amended): every examined line — blank, decorator or other —
consumes one unit of the lookback window, so 9 or more consecutive lines
that the scan merely skips (blank lines, and decorator lines that do not
themselves pass the doc-comment test) immediately above the export exhaust
the window and force an undocumented verdict, even when a qualifying doc
comment sits directly above the run. -/
theorem c10_amended_window_exhaustion (before : List String) (doc : String)
    (mid : List String) (line : String) (after : List String)
    (hlen : 9 ≤ mid.length)
    (hmid : ∀ l ∈ mid, skipsLine l = true)
    (_hdoc : isDocComment doc = true) :
    hasDocstring (before ++ doc :: mid ++ line :: after)
      (before.length + 1 + mid.length) = false := by
  rw [hasDocstring, lookbackWindow_structured,
      List.take_append_of_le_length (by rw [List.length_reverse]; omega)]
  exact classifyScan_of_all_skips fun l hl =>
    hmid l (List.mem_reverse.mp (List.mem_of_mem_take hl))

/-- Witness for the amended C10 at a concrete input: 9 blank lines between
the doc comment and the export. -/
theorem c10_amended_window_exhaustion_witness :
    (9 ≤ (["", "", "", "", "", "", "", "", ""] : List String).length ∧
      (∀ l ∈ (["", "", "", "", "", "", "", "", ""] : List String), skipsLine l = true) ∧
      isDocComment "/** d */" = true) ∧
    hasDocstring ([] ++ "/** d */" :: ["", "", "", "", "", "", "", "", ""] ++
      "export function n()" :: []) (List.length ([] : List String) + 1 + 9) = false :=
  ⟨⟨by decide, by decide, by decide⟩,
    c10_amended_window_exhaustion [] "/** d */" ["", "", "", "", "", "", "", "", ""]
      "export function n()" [] (by decide) (by decide) (by decide)⟩

/-! ### C3: the lookback bound -/

/-- Rewriting any line more than 9 lines above the export line leaves the
lookback window unchanged: the scan physically never reads it. -/
theorem lookbackWindow_set (lines : List String) (i j : Nat) (s : String)
    (hj : j + 9 < i) (hi : i ≤ lines.length) :
    lookbackWindow (lines.set j s) i = lookbackWindow lines i := by
  apply List.ext_getElem
  · simp [lookbackWindow, List.length_take]
  · intro n h1 h2
    have hn9 : n < 9 := by
      have := h1
      simp only [lookbackWindow, List.length_take, List.length_reverse,
        List.length_set] at this
      omega
    simp only [lookbackWindow, List.getElem_take, List.getElem_reverse,
      List.length_take, List.length_set, Nat.min_eq_left hi]
    rw [List.getElem_set_ne (by omega)]

/-- C3: the backward scan examines at most the 9 lines immediately
preceding the export line: rewriting a line more than 9 above the export
does not change the verdict, and when every line of the window is one the
scan skips, a qualifying doc comment lying above the window is not reached
and the verdict is undocumented. -/
theorem c3_lookback_bound (lines : List String) (i j : Nat) (s : String)
    (hj : j + 9 < i) (hi : i ≤ lines.length)
    (_hdoc : isDocComment (lines.getD j "") = true)
    (hclose : ∀ l ∈ lookbackWindow lines i, skipsLine l = true) :
    hasDocstring (lines.set j s) i = hasDocstring lines i ∧
    hasDocstring lines i = false :=
  ⟨by rw [hasDocstring, hasDocstring, lookbackWindow_set lines i j s hj hi],
   classifyScan_of_all_skips hclose⟩

/-- Concrete input for the C3 witness: a doc comment 10 lines above the
export with 9 blank lines in between. -/
def exLinesC3 : List String :=
  ["/** d */", "", "", "", "", "", "", "", "", "", "export function g()"]

/-- Witness for C3 at `exLinesC3`, replacing the (unread) doc line by other
code. -/
theorem c3_lookback_bound_witness :
    (0 + 9 < 10 ∧ 10 ≤ exLinesC3.length ∧
      isDocComment (exLinesC3.getD 0 "") = true ∧
      (∀ l ∈ lookbackWindow exLinesC3 10, skipsLine l = true)) ∧
    hasDocstring (exLinesC3.set 0 "const q = 2;") 10 = hasDocstring exLinesC3 10 ∧
    hasDocstring exLinesC3 10 = false :=
  ⟨⟨by decide, by decide, by decide, by decide⟩,
    c3_lookback_bound exLinesC3 10 0 "const q = 2;"
      (by decide) (by decide) (by decide) (by decide)⟩

/-! ### C4: aggregator invariants -/

/-- The list `missing_docstrings` is exactly the stream of undocumented sites, in
order, rendered by the entry formatter. -/
theorem missingDocstrings_eq_filter (sites : List ExportSite) :
    missingDocstrings sites =
      (sites.filter (fun s => !s.documented)).map fmtMissing := by
  induction sites with
  | nil => rfl
  | cons s rest ih =>
    by_cases h : s.documented
    · simp [missingDocstrings, List.filterMap_cons, List.filter_cons, h,
        ← ih, missingDocstrings]
    · simp [missingDocstrings, List.filterMap_cons, List.filter_cons, h,
        ← ih, missingDocstrings]

/-- A list splits into the part satisfying a predicate and the part
falsifying it. -/
theorem length_filter_split (p : ExportSite → Bool) (l : List ExportSite) :
    (l.filter p).length + (l.filter (fun a => !(p a))).length = l.length := by
  induction l with
  | nil => rfl
  | cons a l ih =>
    by_cases h : p a
    · simp [List.filter_cons, h, ← ih]; omega
    · simp [List.filter_cons, h, ← ih]; omega

/-- Every site the line loop emits lies strictly below its start index. -/
theorem scanLines_line_lt (fp : String) (all : List String) :
    ∀ (idx : Nat) (ls : List String) (s : ExportSite),
      s ∈ scanLines fp all idx ls → idx < s.line := by
  intro idx ls
  induction ls generalizing idx with
  | nil => intro s hs; simp [scanLines] at hs
  | cons l rest ih =>
    intro s hs
    cases he : lineExport l with
    | some n =>
      rw [scanLines, he] at hs
      rcases List.mem_cons.mp hs with h | h
      · subst h; simp
      · have := ih (idx + 1) s h; omega
    | none =>
      rw [scanLines, he] at hs
      have := ih (idx + 1) s hs; omega

/-- The sites of one scan pass have strictly increasing line numbers. -/
theorem scanLines_pairwise (fp : String) (all : List String) :
    ∀ (idx : Nat) (ls : List String),
      (scanLines fp all idx ls).Pairwise (fun a b => a.line < b.line) := by
  intro idx ls
  induction ls generalizing idx with
  | nil => simp [scanLines]
  | cons l rest ih =>
    cases he : lineExport l with
    | none => rw [scanLines, he]; exact ih (idx + 1)
    | some n =>
      rw [scanLines, he]
      refine List.pairwise_cons.mpr ⟨?_, ih (idx + 1)⟩
      intro b hb
      have := scanLines_line_lt fp all (idx + 1) rest b hb
      simpa using this

/-- C4: after every run, the documented count is at most the total, the
missing list's length is total minus documented, the missing list is
exactly the undocumented sites in discovery order (an order-preserving
filter of the site stream, with no reordering and no deduplication), and
within each file the sites carry strictly ascending line numbers. -/
theorem c4_aggregator_invariants (files : List (String × String)) :
    documentedCount (allSites files) ≤ (allSites files).length ∧
    (missingDocstrings (allSites files)).length =
      (allSites files).length - documentedCount (allSites files) ∧
    missingDocstrings (allSites files) =
      ((allSites files).filter (fun s => !s.documented)).map fmtMissing ∧
    (∀ fp c, (fileSites fp c).Pairwise (fun a b => a.line < b.line)) := by
  refine ⟨List.length_filter_le _ _, ?_, missingDocstrings_eq_filter _, ?_⟩
  · rw [missingDocstrings_eq_filter, List.length_map]
    have := length_filter_split (fun s => s.documented) (allSites files)
    rw [documentedCount]
    omega
  · intro fp c
    exact scanLines_pairwise fp (fileLines c) 0 (fileLines c)

/-! ### C5: the export locator -/

/-- The line loop emits at most one site per line number. -/
theorem scanLines_countP_le_one (fp : String) (all : List String) (n : Nat) :
    ∀ (idx : Nat) (ls : List String),
      (scanLines fp all idx ls).countP (fun s => s.line == n) ≤ 1 := by
  intro idx ls
  induction ls generalizing idx with
  | nil => simp [scanLines]
  | cons l rest ih =>
    cases he : lineExport l with
    | none => rw [scanLines, he]; exact ih (idx + 1)
    | some nm =>
      rw [scanLines, he, List.countP_cons]
      by_cases hn : idx + 1 = n
      · have hz : (scanLines fp all (idx + 1) rest).countP (fun s => s.line == n) = 0 := by
          rw [List.countP_eq_zero]
          intro b hb
          have hlt := scanLines_line_lt fp all (idx + 1) rest b hb
          simp only [beq_iff_eq]
          omega
        rw [hz]
        simp [hn]
      · have hb : (idx + 1 == n) = false := by simpa using hn
        simpa [hb] using ih (idx + 1)

/-- The pattern never matches an empty input. -/
theorem matchExportAt_nil : matchExportAt [] = none := by decide

/-- The search returns the match at the leftmost matching position: whenever
the pattern matches at offset `k`, the search result is the full match at
some offset `m ≤ k`. -/
theorem searchExport_leftmost : ∀ (cs : List Char) (k : Nat),
    (matchExportAt (cs.drop k)).isSome = true →
    ∃ m, m ≤ k ∧ searchExport cs = matchExportAt (cs.drop m) ∧
      (matchExportAt (cs.drop m)).isSome = true := by
  intro cs
  induction cs with
  | nil =>
    intro k h
    rw [List.drop_nil, matchExportAt_nil] at h
    exact absurd h (by decide)
  | cons c cs ih =>
    intro k h
    cases hm : matchExportAt (c :: cs) with
    | some nm =>
      refine ⟨0, Nat.zero_le k, ?_, ?_⟩
      · rw [List.drop_zero, searchExport, hm]
      · rw [List.drop_zero, hm]; rfl
    | none =>
      cases k with
      | zero =>
        rw [List.drop_zero, hm] at h
        exact absurd h (by decide)
      | succ k' =>
        rw [List.drop_succ_cons] at h
        obtain ⟨m, hmk, he, hs⟩ := ih k' h
        refine ⟨m + 1, by omega, ?_, ?_⟩
        · rw [List.drop_succ_cons, searchExport, hm, he]
        · rw [List.drop_succ_cons]; exact hs

/-- C5: every input line yields at most one export site; the site is taken
from the leftmost occurrence on the line matching the pattern (export
keyword, optional async modifier, one of the six declaration-kind keywords,
then a word-character name); and a declaration whose name is not on the
same line is not recognized, while a complete single-line declaration is. -/
theorem c5_export_locator (fp c : String) (n : Nat) (cs : List Char) (k : Nat)
    (h : (matchExportAt (cs.drop k)).isSome = true) :
    ((fileSites fp c).countP (fun s => s.line == n) ≤ 1) ∧
    (∃ m, m ≤ k ∧ searchExport cs = matchExportAt (cs.drop m) ∧
      (matchExportAt (cs.drop m)).isSome = true) ∧
    lineExport "export function" = none ∧
    lineExport "export async function foo(x: T)" = some "foo" :=
  ⟨scanLines_countP_le_one fp (fileLines c) n 0 (fileLines c),
   searchExport_leftmost cs k h, by decide, by decide⟩

/-- Witness for C5: on `"xx export const y = 1"` the pattern matches at
offset 3, and the search indeed returns a match at an offset at most 3. -/
theorem c5_export_locator_witness :
    (matchExportAt (("xx export const y = 1").data.drop 3)).isSome = true ∧
    (((fileSites "a.ts" "export const y = 1").countP (fun s => s.line == 1) ≤ 1) ∧
      (∃ m, m ≤ 3 ∧
        searchExport ("xx export const y = 1").data =
          matchExportAt (("xx export const y = 1").data.drop m) ∧
        (matchExportAt (("xx export const y = 1").data.drop m)).isSome = true) ∧
      lineExport "export function" = none ∧
      lineExport "export async function foo(x: T)" = some "foo") :=
  ⟨by decide,
   c5_export_locator "a.ts" "export const y = 1" 1 ("xx export const y = 1").data 3
     (by decide)⟩

/-! ### C7: the empty corpus -/

/-- C7: when no exported item is found, the run returns normally and its
whole output is the single "no exported items found" notice; in particular
no coverage percentage line is produced (and no division happens). -/
theorem c7_empty_corpus (reads : List (String × Except String String))
    (files : List (String × String))
    (hread : readFiles reads = Except.ok files)
    (hempty : allSites files = []) :
    runCheck reads = Except.ok [OutLine.noItems] ∧
    (∀ d t, OutLine.coverage d t ∉ checkOutput files) := by
  have hout : checkOutput files = [OutLine.noItems] := by
    rw [checkOutput, hempty, report]
    rfl
  constructor
  · rw [runCheck, hread]
    exact congrArg Except.ok hout
  · intro d t
    rw [hout]
    simp

/-- Witness for C7: a one-file corpus with no export. -/
theorem c7_empty_corpus_witness :
    (readFiles [("a.ts", Except.ok "let x = 1")] =
        Except.ok [("a.ts", "let x = 1")] ∧
      allSites [("a.ts", "let x = 1")] = []) ∧
    runCheck [("a.ts", Except.ok "let x = 1")] = Except.ok [OutLine.noItems] ∧
    (∀ d t, OutLine.coverage d t ∉ checkOutput [("a.ts", "let x = 1")]) :=
  ⟨⟨rfl, by decide⟩,
    c7_empty_corpus [("a.ts", Except.ok "let x = 1")] [("a.ts", "let x = 1")]
      rfl (by decide)⟩

/-! ### C8: the missing-docstrings section -/

/-- C8 fails as stated: the undocumented location of a one-export corpus is
rendered `"src/f.ts:1 - foo"` — path, colon, 1-indexed line, then a plain
hyphen-minus surrounded by spaces — which differs from the claimed
`path:line — symbolName` rendering with an em dash. -/
theorem c8_counterexample :
    missingDocstrings (allSites [("src/f.ts", "export function foo()")]) =
      ["src/f.ts:1 - foo"] ∧
    "src/f.ts:1 - foo" ≠ "src/f.ts:1 — foo" := by decide

/-- C8 (amended): whenever at least one export is undocumented, the report
is the three counter lines followed by the "Missing docstrings:" header and
one `path:line - symbolName` entry (hyphen-minus separator) per
undocumented export, in the aggregator's stored order. -/
theorem c8_amended_missing_section (files : List (String × String))
    (hne : missingDocstrings (allSites files) ≠ []) :
    checkOutput files =
      [OutLine.total (allSites files).length,
       OutLine.documented (documentedCount (allSites files)),
       OutLine.coverage (documentedCount (allSites files)) (allSites files).length,
       OutLine.missingHeader] ++
      ((allSites files).filter (fun s => !s.documented)).map
        (fun s => OutLine.missingEntry
          (s.file ++ ":" ++ toString s.line ++ " - " ++ s.name)) := by
  have hs : ¬((allSites files).length = 0) := by
    intro h0
    rw [List.length_eq_zero] at h0
    apply hne
    rw [h0]
    rfl
  rw [checkOutput, report, if_neg hs, if_neg hne, missingDocstrings_eq_filter,
    List.map_map]
  rfl

/-- Witness for the amended C8: one undocumented export. -/
theorem c8_amended_missing_section_witness :
    missingDocstrings (allSites [("src/f.ts", "export function foo()")]) ≠ [] ∧
    checkOutput [("src/f.ts", "export function foo()")] =
      [OutLine.total 1, OutLine.documented 0, OutLine.coverage 0 1,
       OutLine.missingHeader, OutLine.missingEntry "src/f.ts:1 - foo"] :=
  ⟨by decide,
   by
    have h := c8_amended_missing_section [("src/f.ts", "export function foo()")]
      (by decide)
    rw [h]
    decide⟩

/-! ### C9: read failures are fatal -/

/-- A read error in the corpus, with only successful reads before it,
surfaces as that very error. -/
theorem readFiles_error (good : List (String × Except String String))
    (p e : String) (rest : List (String × Except String String))
    (hgood : ∀ pr ∈ good, ∃ c, pr.2 = Except.ok c) :
    readFiles (good ++ (p, Except.error e) :: rest) = Except.error e := by
  induction good with
  | nil => rfl
  | cons g gs ih =>
    have ih2 := ih fun pr hpr => hgood pr (List.mem_cons_of_mem g hpr)
    obtain ⟨c, hc⟩ := hgood g (List.mem_cons_self g gs)
    obtain ⟨gp, gr⟩ := g
    simp only at hc
    subst hc
    rw [List.cons_append]
    have hstep : readFiles ((gp, Except.ok c) :: (gs ++ (p, Except.error e) :: rest)) =
        match readFiles (gs ++ (p, Except.error e) :: rest) with
        | Except.error e2 => Except.error e2
        | Except.ok more => Except.ok ((gp, c) :: more) := rfl
    rw [hstep, ih2]

/-- C9: an unreadable (or undecodable) file aborts the run with the read
error itself — the failure is not swallowed and no report of any kind is
produced, so a failed scan is distinguishable from a successful scan with
zero coverage. -/
theorem c9_read_error_fatal (good : List (String × Except String String))
    (p e : String) (rest : List (String × Except String String))
    (hgood : ∀ pr ∈ good, ∃ c, pr.2 = Except.ok c) :
    runCheck (good ++ (p, Except.error e) :: rest) = Except.error e ∧
    (∀ out, runCheck (good ++ (p, Except.error e) :: rest) ≠ Except.ok out) := by
  have h := readFiles_error good p e rest hgood
  constructor
  · rw [runCheck, h]
  · intro out hcontra
    rw [runCheck, h] at hcontra
    exact Except.noConfusion hcontra

/-- Witness for C9: a corpus whose second file fails to read. -/
theorem c9_read_error_fatal_witness :
    (∀ pr ∈ ([("a.ts", Except.ok "export const z = 1")] :
        List (String × Except String String)), ∃ c, pr.2 = Except.ok c) ∧
    runCheck ([("a.ts", Except.ok "export const z = 1")] ++
      ("b.ts", Except.error "boom") :: []) = Except.error "boom" ∧
    (∀ out, runCheck ([("a.ts", Except.ok "export const z = 1")] ++
      ("b.ts", Except.error "boom") :: []) ≠ Except.ok out) := by
  have hgood : ∀ pr ∈ ([("a.ts", Except.ok "export const z = 1")] :
      List (String × Except String String)), ∃ c, pr.2 = Except.ok c := by
    intro pr hpr
    rw [List.mem_singleton] at hpr
    subst hpr
    exact ⟨"export const z = 1", rfl⟩
  exact ⟨hgood,
    c9_read_error_fatal [("a.ts", Except.ok "export const z = 1")] "b.ts" "boom" []
      hgood⟩

end CheckDocstrings

